import Mathlib

/-!
Shallow embedding of `src/backend/server.js` from the BarAppBackend
repository: an Express handler layer over a single MongoDB collection
("cocktails"), plus image proxy routes.

JS values handled by the server are modelled by `Value`; MongoDB documents
are association lists of string keys and values; the collection is a list
of documents. Each route handler and each helper method (`getItems`,
`getItemsByName`, `add`, `edit`, `remove`) is translated into a pure
function; a thrown JS error is an `Except.error`, and the surrounding
`try/catch` of each route turns it into the 500 response the route sends.
MongoDB driver operations (`find`/`skip`/`limit`, `insertOne`, `updateOne`,
`deleteOne`) are modelled at the document level with their documented
single-operation semantics.
-/

namespace BarApp

/-- JS/BSON values as the server handles them. A MongoDB ObjectId is
identified by its canonical (lowercase) 24-hex string. Numbers are
modelled as integers (the server never does arithmetic on field values). -/
inductive Value where
  | vStr : String → Value
  | vNum : Int → Value
  | vBool : Bool → Value
  | vNull : Value
  | vOid : String → Value
deriving DecidableEq, Repr

/-- A document: ordered key/value pairs, as a parsed JSON body or a stored
MongoDB document. -/
abbrev Doc := List (String × Value)

/-- The "cocktails" collection. -/
abbrev Store := List Doc

/-- First-match key lookup in a document (JS property access `d[k]`;
`none` is JS `undefined`). -/
def lookupKey : Doc → String → Option Value
  | [], _ => none
  | (k', v) :: rest, k => if k' = k then some v else lookupKey rest k

/-- JS truthiness of `d[k]` as used in the guards `!data._id` / `!data.id`
(`undefined`, `""`, `0`, `false`, `null` are falsy). -/
def truthy : Option Value → Bool
  | none => false
  | some (.vStr s) => decide (s ≠ "")
  | some (.vNum n) => decide (n ≠ 0)
  | some (.vBool b) => b
  | some .vNull => false
  | some (.vOid _) => true

/-- JS `String(v)` for the values of `Value` (`String(undefined)` is
handled by `jsStringOpt`). Integral numbers render in decimal. -/
def jsString : Value → String
  | .vStr s => s
  | .vNum n => toString n
  | .vBool b => if b then "true" else "false"
  | .vNull => "null"
  | .vOid s => s

/-- JS `String(d.k)` where the property may be absent. -/
def jsStringOpt : Option Value → String
  | some v => jsString v
  | none => "undefined"

/-- `ObjectId.isValid` on a string: exactly a 24-character hex string. -/
def isValidObjectId (s : String) : Bool :=
  s.length = 24 && s.data.all (fun c =>
    c.isDigit || ('a' ≤ c && c ≤ 'f') || ('A' ≤ c && c ≤ 'F'))

/-- Character-by-character lowercase (semantically `String.toLower`,
stated over the character list). -/
def lowerString (s : String) : String :=
  ⟨s.data.map Char.toLower⟩

/-- `new ObjectId(s)`: the resulting id, canonicalised to lowercase hex
(ObjectId equality is byte equality, so hex case is irrelevant). -/
def oidOfString (s : String) : Value :=
  .vOid (lowerString s)

/-- One entry of the parsed `filters` JSON: `{filterName, filterValues}`
(server.js line 244). -/
structure Filter where
  filterName : String
  filterValues : List Value
deriving DecidableEq, Repr

/-- JS object property assignment `m[k] = v`: overwrites the value at an
existing key (keeping its position), otherwise appends the key. This is
how `preparedFilters[filter.filterName] = {$in: filter.filterValues}`
builds the query object. -/
def setKey : List (String × List Value) → String → List Value → List (String × List Value)
  | [], k, v => [(k, v)]
  | (k', v') :: rest, k, v =>
    if k' = k then (k, v) :: rest else (k', v') :: setKey rest k v

/-- The `preparedFilters` object built by the `forEach` loop in `getItems`
(server.js lines 243-245): one `$in` entry per filter name, later filters
overwriting earlier ones with the same name. -/
def prepareFilters (fs : List Filter) : List (String × List Value) :=
  fs.foldl (fun m f => setKey m f.filterName f.filterValues) []

/-- MongoDB match of a document against the prepared query: every
`{k: {$in: vs}}` entry requires the document's value at `k` to be one of
`vs`. -/
def matchesPrepared (d : Doc) (m : List (String × List Value)) : Bool :=
  m.all (fun p =>
    match lookupKey d p.1 with
    | some v => decide (v ∈ p.2)
    | none => false)

/-- MongoDB cursor `.limit(n)`: `0` means no limit; a negative `n` caps
the batch at `|n|` documents. -/
def mongoLimit (docs : List Doc) (n : Int) : List Doc :=
  if n = 0 then docs else docs.take n.natAbs

/-- The `{items, isEndOfCollection}` shape returned by `getItems` and
`getItemsByName`. -/
structure ItemsResult where
  items : List Doc
  isEndOfCollection : Bool
deriving DecidableEq, Repr

/-- `getItems(pagination, limit, filters)` (server.js lines 233-267) with
the filters already parsed from JSON (`filters = none` models the absent
query parameter; a parse failure throws before any query and is not
modelled here). `find(preparedFilters).skip(pagination).limit(limit)`
filters the collection, drops `pagination` documents, caps at `limit`;
then `isEndOfCollection` is set exactly when fewer than `limit` items
came back. -/
def getItems (store : Store) (pagination : Nat) (limit : Int)
    (filters : Option (List Filter)) : ItemsResult :=
  let preparedFilters :=
    match filters with
    | none => []
    | some fs => prepareFilters fs
  let items :=
    mongoLimit ((store.filter (fun d => matchesPrepared d preparedFilters)).drop pagination) limit
  { items := items, isEndOfCollection := decide ((items.length : Int) < limit) }

/-- `getItemsByName(pagination, limit, search)` (server.js lines 269-294).
The `$text: {$search: ...}` match is the document store's text index;
its semantics is abstracted as the predicate `textMatch`. -/
def getItemsByName (textMatch : String → Doc → Bool) (store : Store)
    (pagination : Nat) (limit : Int) (search : String) : ItemsResult :=
  let items := mongoLimit ((store.filter (textMatch search)).drop pagination) limit
  { items := items, isEndOfCollection := decide ((items.length : Int) < limit) }

/-- The spec-side predicate of claim C2: the document's value at the
filter's attribute exists and lies in the filter's permitted set. -/
def satisfiesFilter (d : Doc) (f : Filter) : Bool :=
  match lookupKey d f.filterName with
  | some v => decide (v ∈ f.filterValues)
  | none => false

/-- `collection.insertOne(data)` (driver semantics): if the document
already carries an `_id` field, that value is used as the stored
identifier; otherwise the driver generates a fresh ObjectId (`freshId`,
supplied here as a parameter modelling the generator) and adds it to the
document. Returns the new store and the `insertedId` of the result. -/
def insertOne (store : Store) (freshId : String) (data : Doc) : Store × Value :=
  match lookupKey data "_id" with
  | some v => (store ++ [data], v)
  | none =>
    (store ++ [data ++ [("_id", .vOid freshId)]], .vOid freshId)

/-- `add(data)` (server.js lines 296-306): a plain `insertOne`. -/
def add (store : Store) (freshId : String) (data : Doc) : Store × Value :=
  insertOne store freshId data

/-- JS `delete d.k` on a parsed JSON object: removes the key. -/
def removeKey (d : Doc) (k : String) : Doc :=
  d.filter (fun p => p.1 ≠ k)

/-- One `$set` assignment: set field `k` to `v`, replacing an existing
field in place or appending a new one. -/
def setField : Doc → String → Value → Doc
  | [], k, v => [(k, v)]
  | (k', v') :: rest, k, v =>
    if k' = k then (k, v) :: rest else (k', v') :: setField rest k v

/-- MongoDB `$set` with update document `upd`: each named field is set to
the given value; fields not named keep their values. -/
def applySet (d : Doc) (upd : Doc) : Doc :=
  upd.foldl (fun acc p => setField acc p.1 p.2) d

/-- `collection.updateOne(query, {$set: upd})`: applies the `$set` to the
first document matching `q`, leaving every other document unchanged. -/
def updateOne (store : Store) (q : Doc → Bool) (upd : Doc) : Store :=
  match store with
  | [] => []
  | d :: rest => if q d then applySet d upd :: rest else d :: updateOne rest q upd

/-- `edit(data)` (server.js lines 308-325): throws `Invalid id` unless
`ObjectId.isValid(String(data._id))`; copies the payload, deletes `_id`
from the copy, and runs `updateOne({_id: new ObjectId(String(data._id))},
{$set: preparedData})`. MongoDB rejects an empty `$set` document (server
error 9), which the method's catch rethrows, so that case is an error
too. -/
def edit (store : Store) (data : Doc) : Except String Store :=
  if ¬ isValidObjectId (jsStringOpt (lookupKey data "_id")) then
    .error "Invalid id"
  else
    let preparedData := removeKey data "_id"
    if preparedData = [] then
      .error "empty $set"
    else
      .ok (updateOne store
        (fun d => decide (lookupKey d "_id" = some (oidOfString (jsStringOpt (lookupKey data "_id")))))
        preparedData)

/-- `collection.deleteOne(query)`: removes the first document matching
`q`; returns the new store and the `deletedCount` (1 or 0). -/
def deleteOne (store : Store) (q : Doc → Bool) : Store × Nat :=
  match store with
  | [] => ([], 0)
  | d :: rest =>
    if q d then (rest, 1)
    else
      let r := deleteOne rest q
      (d :: r.1, r.2)

/-- `remove(data)` (server.js lines 327-342): throws `Invalid id` unless
`ObjectId.isValid(String(data.id))`; otherwise deletes the document whose
`_id` equals `new ObjectId(String(data.id))` and returns the delete
result. -/
def remove (store : Store) (data : Doc) : Except String (Store × Nat) :=
  if ¬ isValidObjectId (jsStringOpt (lookupKey data "id")) then
    .error "Invalid id"
  else
    .ok (deleteOne store
      (fun d => decide (lookupKey d "_id" = some (oidOfString (jsStringOpt (lookupKey data "id"))))))

/-- JS `Number(q) || d` for a numeric query-string parameter: a missing
parameter or one that does not parse as a number (`Number` gives `NaN`) is
modelled as `none`; `0` is falsy, so `0` and `none` both fall back to the
default. -/
def jsNumberOr (q : Option Int) (dflt : Int) : Int :=
  match q with
  | none => dflt
  | some n => if n = 0 then dflt else n

/-- Effective limit of GET /api/get-items:
`Math.min(Number(req.query.limit) || 10, 100)` (server.js line 88). -/
def effectiveLimitGetItems (qlimit : Option Int) : Int :=
  min (jsNumberOr qlimit 10) 100

/-- Effective limit of GET /api/search:
`Math.min(Number(req.query.limit) || 10, 20)` (server.js line 102). -/
def effectiveLimitSearch (qlimit : Option Int) : Int :=
  min (jsNumberOr qlimit 10) 20

/-- GET /api/get-items (server.js lines 85-97): parses pagination and the
clamped limit, then answers 200 with the `getItems` result. (A negative
pagination would be rejected by the driver's `skip`; no claim depends on
it, and it is modelled as offset 0.) -/
def getItemsHandler (store : Store) (qpagination qlimit : Option Int)
    (qfilters : Option (List Filter)) : Nat × ItemsResult :=
  let pagination := jsNumberOr qpagination 0
  let limit := effectiveLimitGetItems qlimit
  (200, getItems store pagination.toNat limit qfilters)

/-- GET /api/search (server.js lines 99-115): `String(req.query.search ||
"")`; if the search string is empty the route answers 400 before any
store access (`getItemsByName` is never called), otherwise 200 with the
`getItemsByName` result. -/
def searchHandler (textMatch : String → Doc → Bool) (store : Store)
    (qpagination qlimit : Option Int) (qsearch : Option String) :
    Nat × Option ItemsResult :=
  let pagination := jsNumberOr qpagination 0
  let limit := effectiveLimitSearch qlimit
  let search := match qsearch with | none => "" | some s => s
  if search = "" then (400, none)
  else (200, some (getItemsByName textMatch store pagination.toNat limit search))

/-- POST /api/add (server.js lines 117-131): 400 if the body is absent or
has no keys, otherwise insert and answer 201 with the insert result.
Returns (status, store after the request, `insertedId` of the response
body when one was sent). -/
def addHandler (store : Store) (freshId : String) (body : Option Doc) :
    Nat × Store × Option Value :=
  match body with
  | none => (400, store, none)
  | some data =>
    if data.length = 0 then (400, store, none)
    else
      let r := add store freshId data
      (201, r.1, some r.2)

/-- PUT /api/edit (server.js lines 155-169): 400 if the body is absent or
`data._id` is falsy; otherwise run `edit`, answering 200 on success and
500 when it throws. Returns (status, store after the request). -/
def editHandler (store : Store) (body : Option Doc) : Nat × Store :=
  match body with
  | none => (400, store)
  | some data =>
    if ¬ truthy (lookupKey data "_id") then (400, store)
    else
      match edit store data with
      | .error _ => (500, store)
      | .ok s' => (200, s')

/-- DELETE /api/delete (server.js lines 198-211): 400 if the body is
absent or `data.id` is falsy; otherwise run `remove`, answering 200 with
the delete result on success and 500 when it throws. Returns (status,
store after the request, deletedCount of the response when one was
sent). -/
def deleteHandler (store : Store) (body : Option Doc) : Nat × Store × Option Nat :=
  match body with
  | none => (400, store, none)
  | some data =>
    if ¬ truthy (lookupKey data "id") then (400, store, none)
    else
      match remove store data with
      | .error _ => (500, store, none)
      | .ok r => (200, r.1, some r.2)

/-- Outcome of the media store's `upload_stream` callback once a buffer is
streamed to it. -/
inductive CloudinaryOutcome where
  | success (url public_id : String)
  | failure (msg : String)
deriving DecidableEq, Repr

/-- POST /api/upload-image (server.js lines 133-153): multer puts the
uploaded `image` field in `req.file`. When the field is absent `req.file`
is `undefined` and `req.file.buffer` throws a TypeError inside the `try`
block before the stream is ended, so no upload completes and the catch
answers 500; there is no 400 branch in this route. Returns (status,
whether a buffer was streamed to the media store). -/
def uploadImageHandler (file : Option (List Nat)) (cloud : CloudinaryOutcome) :
    Nat × Bool :=
  match file with
  | none => (500, false)
  | some _ =>
    match cloud with
    | .success _ _ => (200, true)
    | .failure _ => (500, true)

/-- C1: for every (successful) call to `getItems` or `getItemsByName`, the
returned `isEndOfCollection` flag is true iff the number of items returned
is strictly less than the requested limit. -/
theorem isEndOfCollection_iff_count_lt_limit (store : Store) (pagination : Nat)
    (limit : Int) (filters : Option (List Filter))
    (textMatch : String → Doc → Bool) (search : String) :
    ((getItems store pagination limit filters).isEndOfCollection = true ↔
      ((getItems store pagination limit filters).items.length : Int) < limit) ∧
    ((getItemsByName textMatch store pagination limit search).isEndOfCollection = true ↔
      ((getItemsByName textMatch store pagination limit search).items.length : Int) < limit) := by
  constructor <;> simp [getItems, getItemsByName]


/-! Helper lemmas about key lookup, JS object assignment, and the MongoDB
operations. -/

/-- A key that does not occur in a document looks up to `none`. -/
theorem lookupKey_eq_none (d : Doc) (k : String) (h : k ∉ d.map Prod.fst) :
    lookupKey d k = none := by
  induction d with
  | nil => rfl
  | cons p rest ih =>
    obtain ⟨k', v⟩ := p
    simp only [List.map_cons, List.mem_cons] at h
    push_neg at h
    simp only [lookupKey, if_neg (Ne.symm h.1)]
    exact ih h.2

/-- After `m[k] = v`, the pair `(k, v)` is an entry of the object. -/
theorem setKey_mem_self (m : List (String × List Value)) (k : String) (v : List Value) :
    (k, v) ∈ setKey m k v := by
  induction m with
  | nil => simp [setKey]
  | cons p rest ih =>
    obtain ⟨k', v'⟩ := p
    by_cases h : k' = k <;> simp [setKey, h, ih]

/-- Assigning a different key keeps an existing entry. -/
theorem setKey_mem_of_ne (m : List (String × List Value)) (k : String) (v : List Value)
    (k' : String) (v' : List Value) (hne : k ≠ k') (h : (k, v) ∈ m) :
    (k, v) ∈ setKey m k' v' := by
  induction m with
  | nil => cases h
  | cons p rest ih =>
    obtain ⟨k₀, v₀⟩ := p
    by_cases h0 : k₀ = k'
    · simp only [setKey, if_pos h0]
      rcases List.mem_cons.mp h with heq | hmem
      · exfalso
        apply hne
        rw [show k = k₀ from congrArg Prod.fst heq, h0]
      · exact List.mem_cons_of_mem _ hmem
    · simp only [setKey, if_neg h0]
      rcases List.mem_cons.mp h with heq | hmem
      · exact heq ▸ List.mem_cons_self _ _
      · exact List.mem_cons_of_mem _ (ih hmem)

/-- The `forEach` fold keeps an accumulated entry whose key no later
filter reuses. -/
theorem foldl_setKey_mem (fs : List Filter) (k : String) (v : List Value) :
    ∀ acc, (k, v) ∈ acc → (∀ f ∈ fs, f.filterName ≠ k) →
      (k, v) ∈ fs.foldl (fun m f => setKey m f.filterName f.filterValues) acc := by
  induction fs with
  | nil => intro acc h _; exact h
  | cons f rest ih =>
    intro acc h hall
    simp only [List.foldl_cons]
    refine ih _ (setKey_mem_of_ne _ _ _ _ _ ?_ h) ?_
    · exact fun heq => hall f (List.mem_cons_self _ _) heq.symm
    · exact fun g hg => hall g (List.mem_cons_of_mem _ hg)

/-- When filter names are pairwise distinct, every filter of the list
survives as its own `$in` entry of the prepared query object. -/
theorem prepareFilters_mem (fs : List Filter) (f : Filter) (hf : f ∈ fs)
    (hnd : (fs.map Filter.filterName).Nodup) :
    (f.filterName, f.filterValues) ∈ prepareFilters fs := by
  obtain ⟨l, r, rfl⟩ := List.append_of_mem hf
  unfold prepareFilters
  rw [List.foldl_append]
  simp only [List.foldl_cons]
  apply foldl_setKey_mem
  · exact setKey_mem_self _ _ _
  · intro g hg heq
    rw [List.map_append, List.map_cons] at hnd
    have hmid := List.nodup_middle.mp hnd
    have hni := (List.nodup_cons.mp hmid).1
    apply hni
    apply List.mem_append_right
    exact heq ▸ List.mem_map_of_mem _ hg

/-- A document matching the prepared query has, for every entry of the
query object, a value at that key lying in the `$in` set. -/
theorem matchesPrepared_mem (d : Doc) (m : List (String × List Value))
    (h : matchesPrepared d m = true) (k : String) (vs : List Value)
    (hkm : (k, vs) ∈ m) : ∃ v, lookupKey d k = some v ∧ v ∈ vs := by
  have hh := List.all_eq_true.mp h _ hkm
  cases hl : lookupKey d k with
  | none => rw [hl] at hh; simp at hh
  | some v =>
    rw [hl] at hh
    exact ⟨v, rfl, by simpa using hh⟩

/-- Members of a `.limit(n)` batch are members of the underlying cursor
result. -/
theorem mem_of_mem_mongoLimit {docs : List Doc} {n : Int} {d : Doc}
    (h : d ∈ mongoLimit docs n) : d ∈ docs := by
  unfold mongoLimit at h
  split at h
  · exact h
  · exact List.take_subset _ _ h

/-- C2 (counterexample): with two filters on the same attribute, the JS
object assignment keeps only the last one, so `getItems` returns a
document that violates the first filter: the claim's AND semantics over
all (filterName, filterValues) pairs fails. -/
theorem getItems_duplicate_filter_counterexample :
    ([("a", Value.vNum 2)] : Doc) ∈
      (getItems [[("a", Value.vNum 2)]] 0 10
        (some [⟨"a", [Value.vNum 1]⟩, ⟨"a", [Value.vNum 2]⟩])).items ∧
    (⟨"a", [Value.vNum 1]⟩ : Filter) ∈
      ([⟨"a", [Value.vNum 1]⟩, ⟨"a", [Value.vNum 2]⟩] : List Filter) ∧
    satisfiesFilter [("a", Value.vNum 2)] ⟨"a", [Value.vNum 1]⟩ = false := by
  decide

/-- C2 (amended): for every filter set whose filter names are pairwise
distinct, each (filterName, filterValues) pair becomes a set-membership
predicate, the predicates are AND-combined, and every item `getItems`
returns satisfies every one of them; when a name repeats, only the last
pair for that name is applied. -/
theorem getItems_filters_sound (store : Store) (p : Nat) (l : Int) (fs : List Filter)
    (hnd : (fs.map Filter.filterName).Nodup) :
    ∀ d ∈ (getItems store p l (some fs)).items, ∀ f ∈ fs, satisfiesFilter d f = true := by
  intro d hd f hf
  have h1 : d ∈ mongoLimit
      ((store.filter (fun x => matchesPrepared x (prepareFilters fs))).drop p) l := hd
  have h2 := List.drop_subset _ _ (mem_of_mem_mongoLimit h1)
  have hm : matchesPrepared d (prepareFilters fs) = true := (List.mem_filter.mp h2).2
  obtain ⟨v, hv1, hv2⟩ :=
    matchesPrepared_mem d _ hm f.filterName f.filterValues (prepareFilters_mem fs f hf hnd)
  simp only [satisfiesFilter, hv1]
  simpa using hv2

/-- C2 witness: a concrete distinct-name filter set, with the soundness
theorem instantiated at the returned document. -/
theorem getItems_filters_sound_witness :
    satisfiesFilter [("a", Value.vNum 2)] ⟨"a", [Value.vNum 2]⟩ = true :=
  getItems_filters_sound [[("a", Value.vNum 2)]] 0 10 [⟨"a", [Value.vNum 2]⟩]
    (by decide) [("a", Value.vNum 2)] (by decide) ⟨"a", [Value.vNum 2]⟩ (by decide)
/-- Setting a field makes it look up to the new value. -/
theorem lookupKey_setField_self (d : Doc) (k : String) (v : Value) :
    lookupKey (setField d k v) k = some v := by
  induction d with
  | nil => simp [setField, lookupKey]
  | cons p rest ih =>
    obtain ⟨k', v'⟩ := p
    by_cases h : k' = k
    · simp [setField, h, lookupKey]
    · simp [setField, h, lookupKey, ih]

/-- Unfolding equation of `setField` at a cons cell. -/
theorem setField_cons (k₀ : String) (v₀ : Value) (rest : Doc) (k : String) (v : Value) :
    setField ((k₀, v₀) :: rest) k v =
      if k₀ = k then (k, v) :: rest else (k₀, v₀) :: setField rest k v := rfl

/-- Setting a field leaves every other key's lookup unchanged. -/
theorem lookupKey_setField_ne (d : Doc) (k k' : String) (v : Value) (h : k' ≠ k) :
    lookupKey (setField d k v) k' = lookupKey d k' := by
  induction d with
  | nil => simp [setField, lookupKey, Ne.symm h]
  | cons p rest ih =>
    obtain ⟨k₀, v₀⟩ := p
    rw [setField_cons]
    by_cases h0 : k₀ = k
    · rw [if_pos h0]
      have hne : k₀ ≠ k' := fun hh => h (hh ▸ h0)
      simp only [lookupKey, if_neg (Ne.symm h), if_neg hne]
    · rw [if_neg h0]
      simp only [lookupKey]
      by_cases h1 : k₀ = k'
      · rw [if_pos h1, if_pos h1]
      · rw [if_neg h1, if_neg h1, ih]

/-- `$set` does not touch a field its update document does not name. -/
theorem lookupKey_applySet_of_none (upd : Doc) : ∀ (d : Doc) (k : String),
    lookupKey upd k = none → lookupKey (applySet d upd) k = lookupKey d k := by
  induction upd with
  | nil => intro d k _; rfl
  | cons p rest ih =>
    intro d k h
    obtain ⟨k', v'⟩ := p
    have hne : k' ≠ k := by
      intro hh
      simp [lookupKey, hh] at h
    have hrest : lookupKey rest k = none := by simpa [lookupKey, hne] using h
    have hstep : applySet d ((k', v') :: rest) = applySet (setField d k' v') rest := rfl
    rw [hstep, ih _ _ hrest, lookupKey_setField_ne _ _ _ _ (Ne.symm hne)]

/-- `$set` writes every field its (duplicate-free) update document names. -/
theorem lookupKey_applySet_of_some (upd : Doc) : ∀ (d : Doc) (k : String) (v : Value),
    (upd.map Prod.fst).Nodup → lookupKey upd k = some v →
    lookupKey (applySet d upd) k = some v := by
  induction upd with
  | nil => intro d k v _ h; cases h
  | cons p rest ih =>
    intro d k v hnd h
    obtain ⟨k', v'⟩ := p
    have hstep : applySet d ((k', v') :: rest) = applySet (setField d k' v') rest := rfl
    rw [hstep]
    rw [List.map_cons, List.nodup_cons] at hnd
    by_cases hk : k' = k
    · subst hk
      have hv : v' = v := by simpa [lookupKey] using h
      subst hv
      have hrest : lookupKey rest k' = none := lookupKey_eq_none _ _ hnd.1
      rw [lookupKey_applySet_of_none _ _ _ hrest, lookupKey_setField_self]
    · have hrest : lookupKey rest k = some v := by simpa [lookupKey, hk] using h
      exact ih _ _ _ hnd.2 hrest

/-- Unfolding equation of `removeKey` at a cons cell. -/
theorem removeKey_cons (k₀ : String) (v₀ : Value) (rest : Doc) (k : String) :
    removeKey ((k₀, v₀) :: rest) k =
      if k₀ = k then removeKey rest k else (k₀, v₀) :: removeKey rest k := by
  by_cases h : k₀ = k <;> simp [removeKey, List.filter_cons, h]

/-- Deleting a key removes it from lookup. -/
theorem lookupKey_removeKey_self (d : Doc) (k : String) :
    lookupKey (removeKey d k) k = none := by
  induction d with
  | nil => rfl
  | cons p rest ih =>
    obtain ⟨k', v'⟩ := p
    rw [removeKey_cons]
    by_cases h : k' = k
    · rw [if_pos h]
      exact ih
    · rw [if_neg h]
      simp only [lookupKey, if_neg h]
      exact ih

/-- Deleting a key leaves every other key's lookup unchanged. -/
theorem lookupKey_removeKey_ne (d : Doc) (k k' : String) (h : k' ≠ k) :
    lookupKey (removeKey d k) k' = lookupKey d k' := by
  induction d with
  | nil => rfl
  | cons p rest ih =>
    obtain ⟨k₀, v₀⟩ := p
    rw [removeKey_cons]
    by_cases h0 : k₀ = k
    · rw [if_pos h0, ih]
      have hne : k₀ ≠ k' := fun hh => h (hh ▸ h0)
      simp only [lookupKey, if_neg hne]
    · rw [if_neg h0]
      simp only [lookupKey]
      by_cases h1 : k₀ = k'
      · rw [if_pos h1, if_pos h1]
      · rw [if_neg h1, if_neg h1, ih]

/-- Deleting a key preserves distinctness of the remaining keys. -/
theorem removeKey_keys_nodup (d : Doc) (k : String) (h : (d.map Prod.fst).Nodup) :
    ((removeKey d k).map Prod.fst).Nodup :=
  List.Nodup.sublist (List.Sublist.map _ (List.filter_sublist _)) h

/-- `updateOne` relates the old and new store pointwise: each document is
unchanged, or it matched the query and got the `$set` applied. -/
theorem updateOne_forall2 (store : Store) (q : Doc → Bool) (upd : Doc) :
    List.Forall₂ (fun d d' => d' = d ∨ (q d = true ∧ d' = applySet d upd))
      store (updateOne store q upd) := by
  induction store with
  | nil => exact List.Forall₂.nil
  | cons d rest ih =>
    by_cases h : q d
    · simp only [updateOne, if_pos h]
      refine List.Forall₂.cons (Or.inr ⟨h, rfl⟩) ?_
      exact List.forall₂_same.mpr (fun x _ => Or.inl rfl)
    · simp only [updateOne, if_neg h]
      exact List.Forall₂.cons (Or.inl rfl) ih

/-- C3: for every update payload `edit` accepts (valid `_id`, JSON-object
keys, at least one other field — MongoDB rejects an empty `$set`), the
`_id` field is removed from the payload before the `$set` merge, so no
document's identifier changes; in the updated document every other field
named in the payload is set to the payload's value and every field the
payload does not name keeps its value. -/
theorem edit_strips_id_and_merges (store : Store) (data : Doc)
    (hnd : (data.map Prod.fst).Nodup)
    (hv : isValidObjectId (jsStringOpt (lookupKey data "_id")) = true)
    (hne : removeKey data "_id" ≠ []) :
    ∃ store', edit store data = Except.ok store' ∧
      List.Forall₂ (fun d d' =>
        lookupKey d' "_id" = lookupKey d "_id" ∧
        (d' = d ∨
          ((∀ k v, k ≠ "_id" → lookupKey data k = some v → lookupKey d' k = some v) ∧
           (∀ k, lookupKey data k = none → lookupKey d' k = lookupKey d k)))) store store' := by
  refine ⟨updateOne store
    (fun d => decide (lookupKey d "_id" =
      some (oidOfString (jsStringOpt (lookupKey data "_id")))))
    (removeKey data "_id"), ?_, ?_⟩
  · simp [edit, hv, hne]
  · refine List.Forall₂.imp ?_ (updateOne_forall2 store _ (removeKey data "_id"))
    intro d d' hdd'
    rcases hdd' with rfl | ⟨hq, rfl⟩
    · exact ⟨rfl, Or.inl rfl⟩
    · refine ⟨?_, Or.inr ⟨?_, ?_⟩⟩
      · exact lookupKey_applySet_of_none _ _ _ (lookupKey_removeKey_self data "_id")
      · intro k v hk hkv
        refine lookupKey_applySet_of_some _ _ _ _ (removeKey_keys_nodup data "_id" hnd) ?_
        rw [lookupKey_removeKey_ne _ _ _ hk]
        exact hkv
      · intro k hk
        apply lookupKey_applySet_of_none
        by_cases hkid : k = "_id"
        · subst hkid
          exact lookupKey_removeKey_self data "_id"
        · rw [lookupKey_removeKey_ne _ _ _ hkid]
          exact hk

/-- C3 witness: a concrete accepted payload, with the theorem applied to a
one-document store. -/
theorem edit_strips_id_and_merges_witness :
    ∃ store', edit [[("_id", Value.vOid "0123456789abcdef01234567"), ("name", Value.vStr "old")]]
        [("_id", Value.vStr "0123456789abcdef01234567"), ("name", Value.vStr "new")] =
        Except.ok store' ∧
      List.Forall₂ (fun d d' =>
        lookupKey d' "_id" = lookupKey d "_id" ∧
        (d' = d ∨
          ((∀ k v, k ≠ "_id" →
              lookupKey [("_id", Value.vStr "0123456789abcdef01234567"),
                ("name", Value.vStr "new")] k = some v → lookupKey d' k = some v) ∧
           (∀ k, lookupKey [("_id", Value.vStr "0123456789abcdef01234567"),
                ("name", Value.vStr "new")] k = none →
              lookupKey d' k = lookupKey d k))))
        [[("_id", Value.vOid "0123456789abcdef01234567"), ("name", Value.vStr "old")]] store' :=
  edit_strips_id_and_merges
    [[("_id", Value.vOid "0123456789abcdef01234567"), ("name", Value.vStr "old")]]
    [("_id", Value.vStr "0123456789abcdef01234567"), ("name", Value.vStr "new")]
    (by decide) (by decide) (by decide)
/-- C4 (counterexample): a payload whose `_id` is present but is the empty
string — a malformed ObjectId — is answered 400 by PUT /api/edit (the
falsy-guard `!data._id` fires first), not 500 as the claim requires for
every present-but-malformed identifier. -/
theorem editHandler_present_malformed_400_counterexample :
    (lookupKey [("_id", Value.vStr "")] "_id").isSome = true ∧
    isValidObjectId (jsStringOpt (lookupKey [("_id", Value.vStr "")] "_id")) = false ∧
    (editHandler [] (some [("_id", Value.vStr "")])).1 = 400 := by
  decide

/-- C4 (amended): a request whose identifier field is present, truthy and
malformed fails with the invalid-id error before any store write and is
surfaced as 500; a request whose identifier field is missing — or present
but falsy, such as the empty string — gets 400, also without any store
write. -/
theorem invalid_id_gives_500_before_write (store : Store) (data : Doc) :
    (truthy (lookupKey data "_id") = true →
      isValidObjectId (jsStringOpt (lookupKey data "_id")) = false →
      editHandler store (some data) = (500, store)) ∧
    (truthy (lookupKey data "id") = true →
      isValidObjectId (jsStringOpt (lookupKey data "id")) = false →
      deleteHandler store (some data) = (500, store, none)) ∧
    (truthy (lookupKey data "_id") = false → editHandler store (some data) = (400, store)) ∧
    (truthy (lookupKey data "id") = false → deleteHandler store (some data) = (400, store, none)) ∧
    editHandler store none = (400, store) ∧
    deleteHandler store none = (400, store, none) := by
  refine ⟨?_, ?_, ?_, ?_, rfl, rfl⟩
  · intro ht hv
    simp [editHandler, ht, edit, hv]
  · intro ht hv
    simp [deleteHandler, ht, remove, hv]
  · intro ht
    simp [editHandler, ht]
  · intro ht
    simp [deleteHandler, ht]

/-- C4 witness: concrete instances of the 500 branch (truthy malformed id)
and the 400 branch (falsy id). -/
theorem invalid_id_gives_500_before_write_witness :
    editHandler [] (some [("_id", Value.vStr "zz"), ("id", Value.vStr "zz")]) = (500, []) ∧
    deleteHandler [] (some [("_id", Value.vStr "zz"), ("id", Value.vStr "zz")]) =
      (500, [], none) ∧
    editHandler [] (some [("name", Value.vStr "x")]) = (400, []) :=
  ⟨(invalid_id_gives_500_before_write [] [("_id", Value.vStr "zz"), ("id", Value.vStr "zz")]).1
      (by decide) (by decide),
   (invalid_id_gives_500_before_write [] [("_id", Value.vStr "zz"), ("id", Value.vStr "zz")]).2.1
      (by decide) (by decide),
   (invalid_id_gives_500_before_write [] [("name", Value.vStr "x")]).2.2.1 (by decide)⟩

/-- C5 (counterexample): POST /api/add with a non-empty payload that
carries its own `_id` answers 201 whose insert result contains the
client's value, not the identifier generated by the system. -/
theorem addHandler_client_id_counterexample :
    (addHandler [] "0123456789abcdef01234567"
      (some [("_id", Value.vStr "client-chosen"), ("name", Value.vStr "x")])).2.2 =
      some (Value.vStr "client-chosen") ∧
    Value.vStr "client-chosen" ≠ Value.vOid "0123456789abcdef01234567" := by
  decide

/-- C5 (amended): POST /api/add with an empty or missing payload responds
400 without touching the store; with any non-empty payload it inserts the
document and responds 201 with the insert result containing the stored
document's identifier — the generated one exactly when the payload has no
`_id` field, the payload's own `_id` value otherwise. -/
theorem addHandler_behaviour (store : Store) (freshId : String) (data : Doc) :
    addHandler store freshId none = (400, store, none) ∧
    (data.length = 0 → addHandler store freshId (some data) = (400, store, none)) ∧
    (data.length ≠ 0 → lookupKey data "_id" = none →
      addHandler store freshId (some data) =
        (201, store ++ [data ++ [("_id", Value.vOid freshId)]],
          some (Value.vOid freshId))) ∧
    (data.length ≠ 0 → ∀ v, lookupKey data "_id" = some v →
      addHandler store freshId (some data) = (201, store ++ [data], some v)) := by
  refine ⟨rfl, ?_, ?_, ?_⟩
  · intro h
    simp [addHandler, h]
  · intro h hid
    simp [addHandler, h, add, insertOne, hid]
  · intro h v hid
    simp [addHandler, h, add, insertOne, hid]

/-- C5 witness: the 201 branch at a concrete payload without `_id`. -/
theorem addHandler_behaviour_witness :
    addHandler [] "0123456789abcdef01234567" (some [("name", Value.vStr "Mojito")]) =
      (201, [[("name", Value.vStr "Mojito"),
        ("_id", Value.vOid "0123456789abcdef01234567")]],
        some (Value.vOid "0123456789abcdef01234567")) := by
  have h := (addHandler_behaviour [] "0123456789abcdef01234567"
    [("name", Value.vStr "Mojito")]).2.2.1 (by decide) (by decide)
  simpa using h

/-- C6 (counterexample): `add` (via `insertOne`) stores a client-submitted
`_id` as the document's identifier, so the stored identifier is taken
from the payload, not generated by the system. -/
theorem add_stores_client_id_counterexample :
    (add [] "0123456789abcdef01234567"
        [("_id", Value.vStr "client-chosen"), ("name", Value.vStr "y")]).1 =
      [[("_id", Value.vStr "client-chosen"), ("name", Value.vStr "y")]] ∧
    lookupKey [("_id", Value.vStr "client-chosen"), ("name", Value.vStr "y")] "_id" =
      some (Value.vStr "client-chosen") ∧
    Value.vStr "client-chosen" ≠ Value.vOid "0123456789abcdef01234567" := by
  decide

/-- C6 (amended): whenever the client payload does not itself carry an
`_id` field, the identifier stored for the new document is the
system-generated ObjectId, and it is also the insert result's
`insertedId`. -/
theorem add_generates_id_when_absent (store : Store) (freshId : String) (data : Doc)
    (h : lookupKey data "_id" = none) :
    (add store freshId data).1 = store ++ [data ++ [("_id", Value.vOid freshId)]] ∧
    lookupKey (data ++ [("_id", Value.vOid freshId)]) "_id" = some (Value.vOid freshId) ∧
    (add store freshId data).2 = Value.vOid freshId := by
  refine ⟨?_, ?_, ?_⟩
  · simp [add, insertOne, h]
  · induction data with
    | nil => rfl
    | cons p rest ih =>
      obtain ⟨k', v'⟩ := p
      have hne : k' ≠ "_id" := by
        intro hh
        simp [lookupKey, hh] at h
      have hrest : lookupKey rest "_id" = none := by simpa [lookupKey, hne] using h
      simp only [List.cons_append, lookupKey, if_neg hne]
      exact ih hrest
  · simp [add, insertOne, h]

/-- C6 witness: the amended theorem at a concrete payload without `_id`. -/
theorem add_generates_id_when_absent_witness :
    (add [] "0123456789abcdef01234567" [("name", Value.vStr "Mojito")]).1 =
      [] ++ [[("name", Value.vStr "Mojito")] ++
        [("_id", Value.vOid "0123456789abcdef01234567")]] ∧
    lookupKey ([("name", Value.vStr "Mojito")] ++
      [("_id", Value.vOid "0123456789abcdef01234567")]) "_id" =
      some (Value.vOid "0123456789abcdef01234567") ∧
    (add [] "0123456789abcdef01234567" [("name", Value.vStr "Mojito")]).2 =
      Value.vOid "0123456789abcdef01234567" :=
  add_generates_id_when_absent [] "0123456789abcdef01234567"
    [("name", Value.vStr "Mojito")] (by decide)
/-- `deleteOne` with a query no document matches is a no-op with deleted
count zero. -/
theorem deleteOne_no_match (store : Store) (q : Doc → Bool)
    (h : ∀ d ∈ store, q d = false) : deleteOne store q = (store, 0) := by
  induction store with
  | nil => rfl
  | cons d rest ih =>
    have hd : q d = false := h d (List.mem_cons_self _ _)
    have hrest := ih (fun x hx => h x (List.mem_cons_of_mem _ hx))
    simp [deleteOne, hd, hrest]

/-- `deleteOne` removes the first matching document and counts one. -/
theorem deleteOne_first_match (l r : List Doc) (d : Doc) (q : Doc → Bool)
    (hl : ∀ x ∈ l, q x = false) (hd : q d = true) :
    deleteOne (l ++ d :: r) q = (l ++ r, 1) := by
  induction l with
  | nil => simp [deleteOne, hd]
  | cons x xs ih =>
    have hx : q x = false := hl x (List.mem_cons_self _ _)
    have hrest := ih (fun y hy => hl y (List.mem_cons_of_mem _ hy))
    simp [deleteOne, hx, hrest]

/-- C7: `remove` with a valid identifier that some document of a
unique-identifier store carries deletes exactly that document (deleted
count 1), and repeating the call on the resulting store is a no-op with
deleted count 0. -/
theorem remove_deletes_exactly_one (store : Store) (s : String) (d : Doc)
    (hv : isValidObjectId s = true)
    (hnd : (store.map (fun x => lookupKey x "_id")).Nodup)
    (hd : d ∈ store) (hid : lookupKey d "_id" = some (oidOfString s)) :
    ∃ l r, store = l ++ d :: r ∧
      remove store [("id", Value.vStr s)] = Except.ok (l ++ r, 1) ∧
      remove (l ++ r) [("id", Value.vStr s)] = Except.ok (l ++ r, 0) := by
  obtain ⟨l, r, rfl⟩ := List.append_of_mem hd
  have hjs : jsStringOpt (lookupKey [("id", Value.vStr s)] "id") = s := by
    simp [lookupKey, jsStringOpt, jsString]
  have hnotmem : ∀ x ∈ l ++ r, ¬ lookupKey x "_id" = some (oidOfString s) := by
    intro x hx heq
    rw [List.map_append, List.map_cons] at hnd
    have hni := (List.nodup_cons.mp (List.nodup_middle.mp hnd)).1
    refine hni ?_
    have hm : lookupKey d "_id" ∈ List.map (fun x => lookupKey x "_id") (l ++ r) := by
      rw [hid, ← heq]
      exact List.mem_map_of_mem _ hx
    simpa [List.map_append] using hm
  have hl : ∀ x ∈ l,
      (fun d0 => decide (lookupKey d0 "_id" = some (oidOfString s))) x = false :=
    fun x hx => decide_eq_false (hnotmem x (List.mem_append_left _ hx))
  have hlr : ∀ x ∈ l ++ r,
      (fun d0 => decide (lookupKey d0 "_id" = some (oidOfString s))) x = false :=
    fun x hx => decide_eq_false (hnotmem x hx)
  refine ⟨l, r, rfl, ?_, ?_⟩
  · unfold remove
    rw [hjs, if_neg (by simp [hv])]
    rw [deleteOne_first_match l r d _ hl (decide_eq_true hid)]
  · unfold remove
    rw [hjs, if_neg (by simp [hv])]
    rw [deleteOne_no_match _ _ hlr]

/-- C7 witness: a two-document store with distinct identifiers, deleting
the second document. -/
theorem remove_deletes_exactly_one_witness :
    ∃ l r, ([[("_id", Value.vOid "aaaaaaaaaaaaaaaaaaaaaaaa")],
        [("_id", Value.vOid "bbbbbbbbbbbbbbbbbbbbbbbb")]] : Store) =
        l ++ [("_id", Value.vOid "bbbbbbbbbbbbbbbbbbbbbbbb")] :: r ∧
      remove [[("_id", Value.vOid "aaaaaaaaaaaaaaaaaaaaaaaa")],
          [("_id", Value.vOid "bbbbbbbbbbbbbbbbbbbbbbbb")]]
          [("id", Value.vStr "bbbbbbbbbbbbbbbbbbbbbbbb")] = Except.ok (l ++ r, 1) ∧
      remove (l ++ r) [("id", Value.vStr "bbbbbbbbbbbbbbbbbbbbbbbb")] =
        Except.ok (l ++ r, 0) :=
  remove_deletes_exactly_one
    [[("_id", Value.vOid "aaaaaaaaaaaaaaaaaaaaaaaa")],
      [("_id", Value.vOid "bbbbbbbbbbbbbbbbbbbbbbbb")]]
    "bbbbbbbbbbbbbbbbbbbbbbbb"
    [("_id", Value.vOid "bbbbbbbbbbbbbbbbbbbbbbbb")]
    (by decide) (by decide) (by decide) (by decide)

/-- C8: GET /api/search with a missing or empty search query answers 400
and performs no store operation (no `getItemsByName` result is produced,
so the store is never queried with an empty search string). -/
theorem search_empty_400_before_store (textMatch : String → Doc → Bool) (store : Store)
    (qpagination qlimit : Option Int) :
    searchHandler textMatch store qpagination qlimit none = (400, none) ∧
    searchHandler textMatch store qpagination qlimit (some "") = (400, none) := by
  constructor <;> simp [searchHandler]

/-- C9: for every supplied limit value, the effective limit GET
/api/get-items passes to the store is at most 100 and the one GET
/api/search passes is at most 20; the handlers pass exactly these clamped
limits to `getItems` / `getItemsByName`. -/
theorem effective_limits_never_exceed_caps (store : Store)
    (qpagination qlimit : Option Int) (qfilters : Option (List Filter))
    (textMatch : String → Doc → Bool) :
    effectiveLimitGetItems qlimit ≤ 100 ∧
    effectiveLimitSearch qlimit ≤ 20 ∧
    getItemsHandler store qpagination qlimit qfilters =
      (200, getItems store (jsNumberOr qpagination 0).toNat
        (effectiveLimitGetItems qlimit) qfilters) ∧
    (∀ s : String, s ≠ "" →
      searchHandler textMatch store qpagination qlimit (some s) =
        (200, some (getItemsByName textMatch store (jsNumberOr qpagination 0).toNat
          (effectiveLimitSearch qlimit) s))) := by
  refine ⟨min_le_right _ _, min_le_right _ _, rfl, ?_⟩
  intro s hs
  simp [searchHandler, hs]

/-- C9 witness: a request asking for limit 5000 still reaches the store
with the clamped limit. -/
theorem effective_limits_never_exceed_caps_witness :
    searchHandler (fun _ _ => true) [] none (some 5000) (some "mojito") =
      (200, some (getItemsByName (fun _ _ => true) [] (jsNumberOr none 0).toNat
        (effectiveLimitSearch (some 5000)) "mojito")) :=
  (effective_limits_never_exceed_caps [] none (some 5000) none
    (fun _ _ => true)).2.2.2 "mojito" (by decide)

/-- C10: POST /api/upload-image with the multipart `image` field absent is
answered 500 — never 400 — and no buffer is streamed to the media store,
whatever the media store would have answered. -/
theorem uploadImage_missing_file_500 (cloud : CloudinaryOutcome) :
    uploadImageHandler none cloud = (500, false) ∧
    (uploadImageHandler none cloud).1 ≠ 400 := by
  refine ⟨rfl, ?_⟩
  simp [uploadImageHandler]

end BarApp
